import Mathlib

/-!
Verification of the ESLib typed publish/subscribe event system.

The development shallowly embeds the core of the library:
  * `CppTy`/`decay` model the C++ type representation and `std::decay`
    used by `SubscriberCollectionDecay` (EventRegistry.h).
  * `Registry` models `EventRegistry`: a name-keyed map of type-erased
    subscriber collections, with `registerEvent`, `getOrRegister`,
    `getSubscribers` and `hasRegisteredEvent` (EventRegistry.h).
  * `QState`/`process`/`processUntilEmpty` model `EventQueue`
    (EventQueue.h): the detach-then-fire batch processing over a FIFO
    list of captured events.  Handler bodies are modelled by
    `HandlerAct`: each invocation records a trace entry (the handler's
    tag together with the event argument) and may publish a new event,
    which is what the library's test handlers do.
  * `SubWorld`/`SubscriptionHandle` model `SubscriberCollection`
    handler storage with monotonically increasing ids, plus
    `unsubscribe` and the two `ScopedSubscription::release`
    implementations (EventSubscription.h and the legacy copy in
    EventSubscriberCollection.h).
  * `parseIntCpp` models `ParameterValueParser` for integral types
    (EventParametersParser.h): `std::istringstream >> result`, i.e.
    skip leading whitespace, optional sign, then a maximal run of
    decimal digits; failure (`failbit`, hence `std::invalid_argument`)
    iff no digit can be extracted or the extracted field's value is
    outside the range of the platform's 32-bit `int` (C++11 `num_get`
    overflow behaviour).
-/

namespace ESLib

/-! ## C++ types and std::decay -/

/-- Syntax of the C++ types that can appear in an event signature:
base types, pointers, const/volatile qualification, lvalue and rvalue
references. -/
inductive CppTy
  | base (n : String)
  | ptr (t : CppTy)
  | constQ (t : CppTy)
  | volatileQ (t : CppTy)
  | lref (t : CppTy)
  | rref (t : CppTy)
  deriving DecidableEq, Repr

/-- Strip a top-level reference, as the first stage of `std::decay`. -/
def removeRef : CppTy → CppTy
  | CppTy.lref t => t
  | CppTy.rref t => t
  | t => t

/-- Strip top-level const/volatile qualifiers, the second stage of
`std::decay`.  Qualifiers under a pointer are untouched. -/
def removeTopCv : CppTy → CppTy
  | CppTy.constQ t => removeTopCv t
  | CppTy.volatileQ t => removeTopCv t
  | t => t

/-- `std::decay` as used by `SubscriberCollectionDecay`
(EventRegistry.h line 54): remove references, then top-level cv. -/
def decay (t : CppTy) : CppTy := removeTopCv (removeRef t)

/-- Decay every type of a signature: `SubscriberCollectionDecay<Args...>
= SubscriberCollection<std::decay<Args>::type...>`. -/
def decaySig (ts : List CppTy) : List CppTy := ts.map decay

/-! ## EventRegistry -/

/-- The registry state: `subscribersByEventName` maps each event name to
the stored collection, identified by an allocation id together with the
decayed signature it was instantiated at (the template arguments of the
stored `SubscriberCollectionDecay<Args...>`).  `nextId` models fresh
allocation of collections. -/
structure Registry where
  entries : List (String × Nat × List CppTy)
  nextId : Nat
  deriving DecidableEq, Repr

/-- `subscribersByEventName.find(name)`: association-list lookup. -/
def Registry.find? (r : Registry) (name : String) : Option (Nat × List CppTy) :=
  (r.entries.find? (fun e => e.1 = name)).map (fun e => e.2)

/-- `EventRegistry::registerEvent<Args...>(name)` (EventRegistry.h lines
168-191): if the name exists, throw `std::invalid_argument` (duplicate)
leaving the map unchanged, regardless of the stored signature; otherwise
allocate a fresh `SubscriberCollectionDecay<Args...>` and store it. -/
def Registry.registerEvent (r : Registry) (name : String) (sig : List CppTy) :
    Registry × Except String Nat :=
  match r.find? name with
  | some _ => (r, Except.error ("The event named '" ++ name ++ "' has already been registered!"))
  | none =>
      (⟨r.entries ++ [(name, r.nextId, decaySig sig)], r.nextId + 1⟩, Except.ok r.nextId)

/-- `EventRegistry::getSubscribers<Args...>(name)` (EventRegistry.h
lines 206-234): `none` (NULL) if the name is absent; the stored
collection if the stored signature equals the decayed requested one; a
thrown `std::invalid_argument` if the `dynamic_cast` fails because the
decayed signatures differ. -/
def Registry.getSubscribers (r : Registry) (name : String) (sig : List CppTy) :
    Except String (Option Nat) :=
  match r.find? name with
  | none => Except.ok none
  | some (cid, stored) =>
      if stored = decaySig sig then Except.ok (some cid)
      else Except.error ("The argument types for the event named '" ++ name ++ "' do not match")

/-- `EventRegistry::getOrRegister<Args...>(name)` (EventRegistry.h lines
277-312): return the stored collection when the decayed signatures
agree, throw on a mismatch, and register a fresh collection when the
name is absent. -/
def Registry.getOrRegister (r : Registry) (name : String) (sig : List CppTy) :
    Registry × Except String Nat :=
  match r.find? name with
  | some (cid, stored) =>
      if stored = decaySig sig then (r, Except.ok cid)
      else (r, Except.error ("The argument types for the event named '" ++ name ++ "' do not match"))
  | none =>
      (⟨r.entries ++ [(name, r.nextId, decaySig sig)], r.nextId + 1⟩, Except.ok r.nextId)

/-- `EventSystem::registerEvent<Args...>(name)` (EventSystem.h lines
64-68) simply delegates to `getOrRegister`. -/
def Registry.registerEventSystem (r : Registry) (name : String) (sig : List CppTy) :
    Registry × Except String Nat :=
  r.getOrRegister name sig

/-- `EventRegistry::hasRegisteredEvent<Args...>(name)` (EventRegistry.h
lines 125-154): false when the name is absent, false when the
`dynamic_cast` to the decayed-signature collection fails, true
otherwise.  Never throws. -/
def Registry.hasRegisteredEvent (r : Registry) (name : String) (sig : List CppTy) : Bool :=
  match r.find? name with
  | none => false
  | some (_, stored) => stored = decaySig sig

/-! ## EventQueue -/

/-- The observable behaviour of one subscriber body when invoked with
the event argument: it records its tag in the trace (`plain`), and may
additionally enqueue a new event on the queue (`pub`), which is how a
handler that calls `enqueue`/`publish` during processing behaves. -/
inductive HandlerAct
  | plain (tag : Nat)
  | pub (tag : Nat) (target : Nat) (arg : Nat)
  deriving DecidableEq, Repr

/-- The tag identifying the subscriber body in the invocation trace. -/
def HandlerAct.tag : HandlerAct → Nat
  | HandlerAct.plain t => t
  | HandlerAct.pub t _ _ => t

/-- A `QueuedEvent` (EventQueue.h lines 89-111): the captured reference
to a handler collection (by id) together with the captured argument
value. -/
structure QueuedEvent where
  coll : Nat
  arg : Nat
  deriving DecidableEq, Repr

/-- The collections consulted while firing: each collection id maps to
the ordered list of its subscriber bodies.  Per the library's contract,
collections are not mutated while the queue is being processed. -/
def Colls : Type := Nat → List HandlerAct

/-- The queue state: the FIFO list of pending `QueuedEvent`s (head =
`eventQueueHead`), plus the trace of handler invocations performed so
far (each entry is a handler tag paired with the event argument it was
invoked with). -/
structure QState where
  queue : List QueuedEvent
  trace : List (Nat × Nat)
  deriving DecidableEq, Repr

/-- Invoke one subscriber body with the event argument: record the
trace entry; a publishing body also appends its event at the queue
tail (`EventQueue::enqueue_tuple`, EventQueue.h lines 191-211). -/
def fireAct (a : HandlerAct) (arg : Nat) (s : QState) : QState :=
  match a with
  | HandlerAct.plain t => { s with trace := s.trace ++ [(t, arg)] }
  | HandlerAct.pub t tgt v =>
      { queue := s.queue ++ [⟨tgt, v⟩], trace := s.trace ++ [(t, arg)] }

/-- `QueuedEvent::fire` → `SubscriberCollection::call_tuple`: invoke
every subscriber of the captured collection, in registration order,
with the captured argument. -/
def fireEvent (cs : Colls) (e : QueuedEvent) (s : QState) : QState :=
  (cs e.coll).foldl (fun s a => fireAct a e.arg s) s

/-- Fire a detached chain of events in their original order. -/
def fireAll (cs : Colls) (evs : List QueuedEvent) (s : QState) : QState :=
  evs.foldl (fun s e => fireEvent cs e s) s

/-- `EventQueue::process` (EventQueue.h lines 220-254): if the queue is
empty return false; otherwise detach the whole chain (the queue becomes
empty), fire the detached events in order, and return true.  Events
enqueued by the fired handlers land on the now-empty queue and are not
fired by this call. -/
def process (cs : Colls) (s : QState) : QState × Bool :=
  if s.queue = [] then (s, false)
  else (fireAll cs s.queue ⟨[], s.trace⟩, true)

/-- Modelled from the spec: `EventQueue::processUntilEmpty(maxBatches)`
with a batch limit and a batch-count result is declared and called by
`EventSystem::processUntilEmpty` (EventSystem.h lines 341-344) but its
definition is not under src/ (src/ only contains the parameterless
`void processUntilEmpty() { while (process()); }`, EventQueue.h lines
259-263).  Following the spec's words, it "repeatedly calls
`processAll` until it returns 'empty' or the batch limit is reached;
returns the number of batches actually processed".  The unbounded
default corresponds to a limit large enough that the loop stops only
because a batch found the queue empty (result `< maxBatches`); with
that reading the same recursion is also a fuel-indexed model of the
parameterless `while (process());` loop in src/. -/
def processUntilEmpty (cs : Colls) (maxBatches : Nat) (s : QState) : QState × Nat :=
  match maxBatches with
  | 0 => (s, 0)
  | m + 1 =>
      let p := process cs s
      if p.2 then
        let rest := processUntilEmpty cs m p.1
        (rest.1, rest.2 + 1)
      else (s, 0)

/-- The trace entries produced by firing one event: the tags of the
captured collection's subscribers, in order, paired with the captured
argument. -/
def eventTrace (cs : Colls) (e : QueuedEvent) : List (Nat × Nat) :=
  (cs e.coll).map (fun a => (a.tag, e.arg))

/-- The trace entries produced by firing a whole batch, in FIFO
order. -/
def batchTrace (cs : Colls) (evs : List QueuedEvent) : List (Nat × Nat) :=
  (evs.map (eventTrace cs)).flatten

/-- The events a single subscriber body enqueues when invoked. -/
def actPubs : HandlerAct → List QueuedEvent
  | HandlerAct.plain _ => []
  | HandlerAct.pub _ tgt v => [⟨tgt, v⟩]

/-- The events enqueued while one event is fired. -/
def eventPubs (cs : Colls) (e : QueuedEvent) : List QueuedEvent :=
  ((cs e.coll).map actPubs).flatten

/-- The events enqueued while a whole batch is fired, in enqueue
order. -/
def batchPubs (cs : Colls) (evs : List QueuedEvent) : List QueuedEvent :=
  (evs.map (eventPubs cs)).flatten

/-- `process` applied `k` times (states only). -/
def processIter (cs : Colls) : Nat → QState → QState
  | 0, s => s
  | k + 1, s => processIter cs k (process cs s).1

/-! ## EventSystem facade -/

/-- State of an `EventSystem` (EventSystem.h): the inherited registry,
the bodies of each allocated collection's subscribers (needed to fire
events), and the inner `dynamicQueue` state. -/
structure EvSys where
  reg : Registry
  colls : Colls
  qs : QState

/-- `EventSystem::publish<Args...>(name, args...)` (EventSystem.h lines
285-299): look up the subscribers; NULL means not registered → return
false with no other effect; a signature mismatch propagates the thrown
`std::invalid_argument`; otherwise enqueue the captured event and
return true. -/
def EvSys.publish (es : EvSys) (name : String) (sig : List CppTy) (arg : Nat) :
    Except String (EvSys × Bool) :=
  match es.reg.getSubscribers name sig with
  | Except.error e => Except.error e
  | Except.ok none => Except.ok (es, false)
  | Except.ok (some cid) =>
      Except.ok ({ es with qs := { es.qs with queue := es.qs.queue ++ [⟨cid, arg⟩] } }, true)

/-- `EventSystem::call<Args...>(name, args...)` (EventSystem.h lines
314-328): same lookup; NULL → false with no other effect; mismatch →
propagated exception; otherwise invoke the collection's subscribers
synchronously and return true. -/
def EvSys.call (es : EvSys) (name : String) (sig : List CppTy) (arg : Nat) :
    Except String (EvSys × Bool) :=
  match es.reg.getSubscribers name sig with
  | Except.error e => Except.error e
  | Except.ok none => Except.ok (es, false)
  | Except.ok (some cid) =>
      Except.ok ({ es with qs := fireEvent es.colls ⟨cid, arg⟩ es.qs }, true)

/-! ## SubscriberCollection handler storage and subscription handles -/

/-- One stored subscriber (EventSubscriberCollection.h `Subscriber`):
its id, and a tag standing for the wrapped `std::function` body. -/
structure Subscriber where
  id : Nat
  tag : Nat
  deriving DecidableEq, Repr

/-- A `SubscriberCollection`'s mutable contents: the registration-order
`handlers` vector and the `newIdCounter` that mints fresh ids. -/
structure SubColl where
  handlers : List Subscriber
  newIdCounter : Nat
  deriving DecidableEq, Repr

/-- A world of subscriber collections, addressed by collection id
(standing for the C++ object pointer). -/
structure SubWorld where
  colls : Nat → SubColl

/-- Update one collection of the world. -/
def SubWorld.update (w : SubWorld) (i : Nat) (c : SubColl) : SubWorld :=
  ⟨fun j => if j = i then c else w.colls j⟩

/-- A `SubscriptionHandle` (EventSubscription.h lines 116-176): the
referenced collection (`none` models the NULL empty handle) and the
referenced subscriber id. -/
structure SubHandle where
  subscriberCollection : Option Nat
  subscriberId : Nat
  deriving DecidableEq, Repr

/-- `SubscriberCollection::addSubscriberImpl` (appending with a freshly
minted id) together with the handle it returns. -/
def SubWorld.addSubscriber (w : SubWorld) (i : Nat) (tag : Nat) : SubWorld × SubHandle :=
  let c := w.colls i
  (w.update i ⟨c.handlers ++ [⟨c.newIdCounter, tag⟩], c.newIdCounter + 1⟩,
   ⟨some i, c.newIdCounter⟩)

/-- The loop body of `SubscriberCollection::removeHandler`
(EventSubscriberCollection.h lines 390-402): erase the first handler
whose id matches; no-op when no id matches. -/
def removeFirstById : List Subscriber → Nat → List Subscriber
  | [], _ => []
  | s :: rest, hid => if s.id = hid then rest else s :: removeFirstById rest hid

/-- `SubscriberCollection::removeHandler(handlerId)`. -/
def SubColl.removeHandler (c : SubColl) (hid : Nat) : SubColl :=
  { c with handlers := removeFirstById c.handlers hid }

/-- `SubscriptionHandle::unsubscribe` (EventSubscription.h lines
158-167): nothing on an empty handle; otherwise remove the referenced
handler and turn this handle into an empty one. -/
def SubWorld.unsubscribe (w : SubWorld) (h : SubHandle) : SubWorld × SubHandle :=
  match h.subscriberCollection with
  | none => (w, h)
  | some i => (w.update i ((w.colls i).removeHandler h.subscriberId), ⟨none, h.subscriberId⟩)

/-- `SubscriptionHandle::clear` (EventSubscription.h lines 172-175):
null the collection reference without removing the subscription. -/
def SubHandle.clear (h : SubHandle) : SubHandle :=
  { h with subscriberCollection := none }

/-- `SubscriberCollection::call(args...)`: the trace of invoking every
currently registered subscriber, in registration order, with the given
argument. -/
def SubColl.callTrace (c : SubColl) (arg : Nat) : List (Nat × Nat) :=
  c.handlers.map (fun s => (s.tag, arg))

/-- `ScopedSubscription::release` as defined in EventSubscription.h
lines 258-263: copy the handle, `clear()` this object (no
unsubscription), return the copy.  Result: (world, returned handle,
state the scoped subscription is left in). -/
def ScopedSubscription.release (w : SubWorld) (self : SubHandle) :
    SubWorld × SubHandle × SubHandle :=
  (w, self, self.clear)

/-- `ScopedSubscription::operator=(const SubscriptionHandle&)`
(EventSubscriberCollection.h lines 260-267, identical in
EventSubscription.h lines 216-223): first `unsubscribe()` the currently
owned reference, then copy the members of `handle`. -/
def ScopedSubscription.assignHandle (w : SubWorld) (self h : SubHandle) :
    SubWorld × SubHandle :=
  ((w.unsubscribe self).1, h)

/-- `ScopedSubscription::release` as defined in the legacy copy in
EventSubscriberCollection.h lines 302-307: copy the handle, then
`*this = SubscriptionHandle()`, which resolves to
`operator=(const SubscriptionHandle&)` and therefore unsubscribes the
still-owned reference before overwriting it. -/
def ScopedSubscription.releaseLegacy (w : SubWorld) (self : SubHandle) :
    SubWorld × SubHandle × SubHandle :=
  let res := self
  let assigned := ScopedSubscription.assignHandle w self ⟨none, 0⟩
  (assigned.1, res, assigned.2)

/-- `~ScopedSubscription()` calls `unsubscribe()`. -/
def ScopedSubscription.destruct (w : SubWorld) (self : SubHandle) : SubWorld :=
  (w.unsubscribe self).1

/-- The well-formedness invariant `addSubscriberImpl` maintains: every
stored id was minted before the current counter value. -/
def SubColl.Wf (c : SubColl) : Prop :=
  ∀ s ∈ c.handlers, s.id < c.newIdCounter

/-! ## ParameterValueParser for integral types -/

/-- The whitespace characters `std::istream`'s `skipws` skips (the "C"
locale's `isspace`). -/
def isCppSpace (c : Char) : Bool :=
  c = ' ' ∨ c = '\t' ∨ c = '\n' ∨ c = Char.ofNat 11 ∨ c = Char.ofNat 12 ∨ c = '\r'

/-- Numeric value of a run of decimal digits. -/
def digitsToNat (ds : List Char) : Nat :=
  ds.foldl (fun acc c => acc * 10 + (c.toNat - '0'.toNat)) 0

/-- The sign handling of `std::num_get`: consume a leading `'-'` or
`'+'` if present (returning the sign factor and the remaining
characters), otherwise leave the input untouched. -/
def signSplit (cs : List Char) : Int × List Char :=
  match cs with
  | c :: r => if c = '-' then (-1, r) else if c = '+' then (1, r) else (1, cs)
  | [] => (1, [])

/-- `std::numeric_limits<int>::min()` for the 32-bit `int` of the
library's tested platforms (GCC and Visual Studio 2015 per the
README). -/
def intMin : Int := -(2 ^ 31)

/-- `std::numeric_limits<int>::max()` for the same 32-bit `int`. -/
def intMax : Int := 2 ^ 31 - 1

/-- The exact mathematical value of the sign-and-digits field that
`is >> result` extracts from the input: optional sign after the skipped
whitespace, then the maximal run of decimal digits. -/
def intFieldValue (s : String) : Int :=
  (signSplit (s.data.dropWhile isCppSpace)).1 *
    (digitsToNat ((signSplit (s.data.dropWhile isCppSpace)).2.takeWhile Char.isDigit) : Int)

/-- `ParameterValueParser<T, integral>::parse` (EventParametersParser.h
lines 150-163): `std::istringstream is(s); int result; is >> result`.
Stream extraction with the default `skipws | dec` flags skips leading
whitespace and accepts an optional sign followed by a maximal run of
decimal digits.  `failbit` is set — making the code throw
`std::invalid_argument` — when no digit could be extracted, and also
(C++11 `num_get`) when the extracted field's value is not representable
in `int` (the stored value is clamped, but the failed state is what the
code's `if(!(is >> result))` observes).  Characters after the digit run
are left unread in the stream and the code never checks for them. -/
def parseIntCpp (s : String) : Except String Int :=
  if (signSplit (s.data.dropWhile isCppSpace)).2.takeWhile Char.isDigit = [] then
    Except.error "Illegal integer value"
  else if intFieldValue s < intMin ∨ intMax < intFieldValue s then
    Except.error "Illegal integer value"
  else
    Except.ok (intFieldValue s)

/-- Whether the input, after skipping leading whitespace and an
optional sign, starts with a decimal digit — the exact success
condition of `is >> result`. -/
def hasIntPrefix (s : String) : Bool :=
  match (signSplit (s.data.dropWhile isCppSpace)).2 with
  | c :: _ => c.isDigit
  | [] => false

/-- Whether a character list does not start with a decimal digit. -/
def headNotDigit (l : List Char) : Bool :=
  match l with
  | [] => true
  | c :: _ => !c.isDigit

/-! ## Lemmas about firing and batch processing -/

theorem fireAct_eq (a : HandlerAct) (arg : Nat) (s : QState) :
    fireAct a arg s = ⟨s.queue ++ actPubs a, s.trace ++ [(a.tag, arg)]⟩ := by
  cases a <;> simp [fireAct, actPubs, HandlerAct.tag]

theorem fireActs_eq (acts : List HandlerAct) (arg : Nat) (s : QState) :
    acts.foldl (fun s a => fireAct a arg s) s
      = ⟨s.queue ++ (acts.map actPubs).flatten,
         s.trace ++ acts.map (fun a => (a.tag, arg))⟩ := by
  induction acts generalizing s with
  | nil => simp
  | cons a rest ih =>
      rw [List.foldl_cons, ih]
      simp [fireAct_eq, List.append_assoc]

theorem fireEvent_eq (cs : Colls) (e : QueuedEvent) (s : QState) :
    fireEvent cs e s = ⟨s.queue ++ eventPubs cs e, s.trace ++ eventTrace cs e⟩ := by
  simp [fireEvent, fireActs_eq, eventPubs, eventTrace]

theorem fireAll_eq (cs : Colls) (evs : List QueuedEvent) (s : QState) :
    fireAll cs evs s = ⟨s.queue ++ batchPubs cs evs, s.trace ++ batchTrace cs evs⟩ := by
  induction evs generalizing s with
  | nil => simp [fireAll, batchPubs, batchTrace]
  | cons e rest ih =>
      have h1 : fireAll cs (e :: rest) s = fireAll cs rest (fireEvent cs e s) := rfl
      rw [h1, ih, fireEvent_eq]
      simp [batchPubs, batchTrace, List.append_assoc]

theorem process_fst (cs : Colls) (s : QState) :
    (process cs s).1 = ⟨batchPubs cs s.queue, s.trace ++ batchTrace cs s.queue⟩ := by
  obtain ⟨q, tr⟩ := s
  by_cases h : q = []
  · subst h
    simp [process, batchPubs, batchTrace]
  · simp [process, h, fireAll_eq]

theorem process_snd (cs : Colls) (s : QState) :
    (process cs s).2 = !s.queue.isEmpty := by
  by_cases h : s.queue = [] <;> simp [process, h]

theorem batchTrace_append (cs : Colls) (l₁ l₂ : List QueuedEvent) :
    batchTrace cs (l₁ ++ l₂) = batchTrace cs l₁ ++ batchTrace cs l₂ := by
  simp [batchTrace]

theorem batchTrace_cons (cs : Colls) (e : QueuedEvent) (l : List QueuedEvent) :
    batchTrace cs (e :: l) = eventTrace cs e ++ batchTrace cs l := by
  simp [batchTrace]

theorem processUntilEmpty_zero (cs : Colls) (s : QState) :
    processUntilEmpty cs 0 s = (s, 0) := rfl

theorem processUntilEmpty_succ_empty (cs : Colls) (s : QState) (m : Nat)
    (h : s.queue = []) : processUntilEmpty cs (m + 1) s = (s, 0) := by
  simp [processUntilEmpty, process, h]

theorem processUntilEmpty_succ_nonempty (cs : Colls) (s : QState) (m : Nat)
    (h : s.queue ≠ []) :
    processUntilEmpty cs (m + 1) s
      = ((processUntilEmpty cs m (process cs s).1).1,
         (processUntilEmpty cs m (process cs s).1).2 + 1) := by
  simp [processUntilEmpty, process_snd, List.isEmpty_iff, h]

theorem processUntilEmpty_count_le (cs : Colls) (m : Nat) (s : QState) :
    (processUntilEmpty cs m s).2 ≤ m := by
  induction m generalizing s with
  | zero => simp [processUntilEmpty_zero]
  | succ m ih =>
      by_cases h : s.queue = []
      · simp [processUntilEmpty_succ_empty cs s m h]
      · rw [processUntilEmpty_succ_nonempty cs s m h]
        exact Nat.succ_le_succ (ih _)

theorem processUntilEmpty_state_eq (cs : Colls) (m : Nat) (s : QState) :
    (processUntilEmpty cs m s).1 = processIter cs (processUntilEmpty cs m s).2 s := by
  induction m generalizing s with
  | zero => simp [processUntilEmpty_zero, processIter]
  | succ m ih =>
      by_cases h : s.queue = []
      · simp [processUntilEmpty_succ_empty cs s m h, processIter]
      · rw [processUntilEmpty_succ_nonempty cs s m h]
        simpa [processIter] using ih (process cs s).1

theorem processUntilEmpty_stop_empty (cs : Colls) (m : Nat) (s : QState)
    (h : (processUntilEmpty cs m s).2 < m) :
    (processIter cs (processUntilEmpty cs m s).2 s).queue = [] := by
  induction m generalizing s with
  | zero => exact absurd h (by simp)
  | succ m ih =>
      by_cases hq : s.queue = []
      · simpa [processUntilEmpty_succ_empty cs s m hq, processIter] using hq
      · rw [processUntilEmpty_succ_nonempty cs s m hq] at h ⊢
        have h2 : (processUntilEmpty cs m (process cs s).1).2 < m := by omega
        simpa [processIter] using ih (process cs s).1 h2

theorem processUntilEmpty_batches_nonempty (cs : Colls) (m : Nat) (s : QState) :
    ∀ j < (processUntilEmpty cs m s).2, (processIter cs j s).queue ≠ [] := by
  induction m generalizing s with
  | zero => simp [processUntilEmpty_zero]
  | succ m ih =>
      by_cases hq : s.queue = []
      · simp [processUntilEmpty_succ_empty cs s m hq]
      · rw [processUntilEmpty_succ_nonempty cs s m hq]
        intro j hj
        match j with
        | 0 => simpa [processIter] using hq
        | j + 1 =>
            have := ih (process cs s).1 j (by omega)
            simpa [processIter] using this

theorem processUntilEmpty_trace_mono (cs : Colls) (m : Nat) (s : QState) :
    ∃ t, (processUntilEmpty cs m s).1.trace = s.trace ++ t := by
  induction m generalizing s with
  | zero => exact ⟨[], by simp [processUntilEmpty_zero]⟩
  | succ m ih =>
      by_cases hq : s.queue = []
      · exact ⟨[], by simp [processUntilEmpty_succ_empty cs s m hq]⟩
      · rw [processUntilEmpty_succ_nonempty cs s m hq]
        obtain ⟨t, ht⟩ := ih (process cs s).1
        refine ⟨batchTrace cs s.queue ++ t, ?_⟩
        rw [ht, process_fst]
        simp

/-! ## Registry lemmas -/

theorem find?_key_append_self (l : List (String × Nat × List CppTy)) (name : String)
    (v : Nat × List CppTy) (h : l.find? (fun e => e.1 = name) = none) :
    (l ++ [(name, v)]).find? (fun e => e.1 = name) = some (name, v) := by
  induction l with
  | nil => simp
  | cons a t ih =>
      by_cases ha : a.1 = name
      · rw [List.find?_cons_of_pos] at h
        · exact absurd h (by simp)
        · simpa using ha
      · rw [List.cons_append, List.find?_cons_of_neg]
        · rw [List.find?_cons_of_neg] at h
          · exact ih h
          · simpa using ha
        · simpa using ha

theorem find?_after_register (r : Registry) (name : String) (sig : List CppTy)
    (h : r.find? name = none) :
    ((r.registerEvent name sig).1).find? name = some (r.nextId, decaySig sig) := by
  have hl : r.entries.find? (fun e => e.1 = name) = none := by
    unfold Registry.find? at h
    exact Option.map_eq_none.mp h
  unfold Registry.registerEvent
  rw [h]
  unfold Registry.find?
  simp only []
  rw [find?_key_append_self r.entries name (r.nextId, decaySig sig) hl]
  rfl

/-! ## Claim theorems -/

/-- C2: one `process()` call detaches the whole current chain, fires
the detached events' handler collections in exactly enqueue order
(FIFO across topics, `batchTrace` concatenates the per-event handler
invocations in queue order), leaves on the queue exactly the events
enqueued during the firing phase (which are therefore not fired by
this call), and returns false iff the queue was empty when it
started. -/
theorem process_detaches_and_fires_fifo (cs : Colls) (s : QState) :
    (process cs s).2 = !s.queue.isEmpty ∧
    (process cs s).1.trace = s.trace ++ batchTrace cs s.queue ∧
    (process cs s).1.queue = batchPubs cs s.queue := by
  refine ⟨process_snd cs s, ?_, ?_⟩ <;> rw [process_fst]

/-- Example collections: collection 0 has one handler (tag 10) that
publishes a new event to collection 1; collection 1 has one plain
handler (tag 20). -/
def csW : Colls := fun n =>
  if n = 0 then [HandlerAct.pub 10 1 99]
  else if n = 1 then [HandlerAct.plain 20] else []

/-- Example start state: one queued event for collection 0. -/
def sW : QState := ⟨[⟨0, 5⟩], []⟩

/-- C3: `processUntilEmpty(maxBatches)` performs some number `k ≤
maxBatches` of batch-processing steps, returns `k`, leaves the state
reached by iterating `process` exactly `k` times, every one of the `k`
counted batches found a nonempty queue, and whenever it stops before
the batch limit (in particular for an unbounded limit) it is because a
batch found the queue empty. -/
theorem processUntilEmpty_batch_semantics (cs : Colls) (s : QState) (m : Nat) :
    (processUntilEmpty cs m s).2 ≤ m ∧
    (processUntilEmpty cs m s).1 = processIter cs (processUntilEmpty cs m s).2 s ∧
    ((processUntilEmpty cs m s).2 < m →
      (processIter cs (processUntilEmpty cs m s).2 s).queue = []) ∧
    (∀ j < (processUntilEmpty cs m s).2, (processIter cs j s).queue ≠ []) :=
  ⟨processUntilEmpty_count_le cs m s, processUntilEmpty_state_eq cs m s,
   fun h => processUntilEmpty_stop_empty cs m s h,
   processUntilEmpty_batches_nonempty cs m s⟩

/-- Witness for C3 at a concrete queue: the run needs 2 batches (the
handler of the first batch publishes a new event picked up by the
second), stops below the limit 5, and the stop state has an empty
queue. -/
theorem processUntilEmpty_batch_semantics_witness :
    (processUntilEmpty csW 5 sW).2 < 5 ∧
    (processIter csW (processUntilEmpty csW 5 sW).2 sW).queue = [] :=
  ⟨by decide, (processUntilEmpty_batch_semantics csW sW 5).2.2.1 (by decide)⟩

/-- C7: if a handler fired during `processUntilEmpty` enqueues a new
event `e` (so `e` is on the queue right after the first batch), and the
run stops before its batch limit, then the final trace contains the
invocations of `e`'s handler collection, placed after every invocation
of the batch that was in flight when `e` was enqueued. -/
theorem reentrant_publish_processed_after (cs : Colls) (s : QState) (m : Nat)
    (e : QueuedEvent)
    (h1 : e ∈ (process cs s).1.queue)
    (h2 : (processUntilEmpty cs m s).2 < m) :
    ∃ pre post,
      (processUntilEmpty cs m s).1.trace
        = s.trace ++ batchTrace cs s.queue ++ pre ++ eventTrace cs e ++ post := by
  have hq : s.queue ≠ [] := by
    intro h
    rw [process_fst] at h1
    simp only [h] at h1
    simp [batchPubs] at h1
  match m, h2 with
  | m' + 1, h2 =>
    rw [processUntilEmpty_succ_nonempty cs s m' hq] at h2 ⊢
    simp only [] at h2 ⊢
    have h2' : (processUntilEmpty cs m' (process cs s).1).2 < m' := by omega
    have hq1 : (process cs s).1.queue ≠ [] := List.ne_nil_of_mem h1
    match m', h2' with
    | m'' + 1, h2' =>
      rw [processUntilEmpty_succ_nonempty cs (process cs s).1 m'' hq1]
      simp only []
      obtain ⟨t, ht⟩ := processUntilEmpty_trace_mono cs m'' (process cs (process cs s).1).1
      rw [ht, process_fst cs (process cs s).1]
      simp only []
      obtain ⟨l₁, l₂, hdec⟩ := List.append_of_mem h1
      rw [process_fst cs s]
      simp only []
      rw [process_fst cs s] at hdec
      simp only [] at hdec
      rw [hdec, batchTrace_append, batchTrace_cons]
      exact ⟨batchTrace cs l₁, batchTrace cs l₂ ++ t, by simp [List.append_assoc]⟩

/-- Witness for C7: in the concrete system `csW`/`sW`, the first batch
publishes event ⟨1, 99⟩, the run stops below the limit 5, and the
final trace shows collection 1's handler fired after the first
batch. -/
theorem reentrant_publish_processed_after_witness :
    (⟨1, 99⟩ : QueuedEvent) ∈ (process csW sW).1.queue ∧
    (processUntilEmpty csW 5 sW).2 < 5 ∧
    (∃ pre post,
      (processUntilEmpty csW 5 sW).1.trace
        = sW.trace ++ batchTrace csW sW.queue ++ pre ++ eventTrace csW ⟨1, 99⟩ ++ post) :=
  ⟨by decide, by decide,
   reentrant_publish_processed_after csW sW 5 ⟨1, 99⟩ (by decide) (by decide)⟩

/-- A registry holding one event "A" with (decayed) signature [int]. -/
def rA : Registry := (Registry.registerEvent ⟨[], 0⟩ "A" [CppTy.base "int"]).1

/-- C1 counterexample: registering the already-registered topic "A"
again through `EventSystem::registerEvent` — one of the two
registration entry points the claim covers — does not fail with a
duplicate-topic error when the signature matches: it silently returns
the existing collection (id 0), because `EventSystem::registerEvent`
delegates to `getOrRegister`. -/
theorem eventsystem_reregister_succeeds :
    rA.registerEventSystem "A" [CppTy.base "int"] = (rA, Except.ok 0) := by rfl

/-- C1 amended: `EventRegistry::registerEvent` on an existing name does
fail with `std::invalid_argument` regardless of the signature and
leaves the map unchanged; but `EventSystem::registerEvent` (=
`getOrRegister`) returns the existing collection without error when
the decayed signature matches, and fails (with a signature-mismatch,
not duplicate, error) only when it differs — the map unchanged in
every case. -/
theorem registerEvent_duplicate_behaviour (r : Registry) (name : String)
    (sig2 : List CppTy) (cid : Nat) (stored : List CppTy)
    (h : r.find? name = some (cid, stored)) :
    (∃ e, (r.registerEvent name sig2).2 = Except.error e) ∧
    (r.registerEvent name sig2).1 = r ∧
    (stored = decaySig sig2 → r.registerEventSystem name sig2 = (r, Except.ok cid)) ∧
    (stored ≠ decaySig sig2 →
      (∃ e, (r.registerEventSystem name sig2).2 = Except.error e) ∧
      (r.registerEventSystem name sig2).1 = r) := by
  refine ⟨?_, ?_, fun hm => ?_, fun hm => ⟨?_, ?_⟩⟩
  · unfold Registry.registerEvent
    rw [h]
    exact ⟨_, rfl⟩
  · unfold Registry.registerEvent
    rw [h]
  · unfold Registry.registerEventSystem Registry.getOrRegister
    rw [h]
    dsimp only
    rw [if_pos hm]
  · unfold Registry.registerEventSystem Registry.getOrRegister
    rw [h]
    dsimp only
    rw [if_neg (fun hc => hm hc)]
    exact ⟨_, rfl⟩
  · unfold Registry.registerEventSystem Registry.getOrRegister
    rw [h]
    dsimp only
    rw [if_neg (fun hc => hm hc)]

/-- Witness for C1's amended claim at the concrete registry `rA`. -/
theorem registerEvent_duplicate_behaviour_witness :
    (∃ e, (rA.registerEvent "A" [CppTy.base "bool"]).2 = Except.error e) ∧
    (rA.registerEvent "A" [CppTy.base "bool"]).1 = rA ∧
    ([CppTy.base "int"] = decaySig [CppTy.base "bool"] →
      rA.registerEventSystem "A" [CppTy.base "bool"] = (rA, Except.ok 0)) ∧
    ([CppTy.base "int"] ≠ decaySig [CppTy.base "bool"] →
      (∃ e, (rA.registerEventSystem "A" [CppTy.base "bool"]).2 = Except.error e) ∧
      (rA.registerEventSystem "A" [CppTy.base "bool"]).1 = rA) :=
  registerEvent_duplicate_behaviour rA "A" [CppTy.base "bool"] 0 [CppTy.base "int"]
    (by decide)

/-- C5: registering a fresh topic returns a new collection id; looking
it up with any signature whose reference/cv decay agrees succeeds and
returns that same collection; looking it up with a signature that
differs after decay (pointer constness included, since decay leaves
it in place) raises a signature-mismatch error rather than succeeding
silently. -/
theorem register_then_lookup_decay (r : Registry) (name : String)
    (sig sig2 : List CppTy) (h : r.find? name = none) :
    (r.registerEvent name sig).2 = Except.ok r.nextId ∧
    (decaySig sig2 = decaySig sig →
      ((r.registerEvent name sig).1).getSubscribers name sig2
        = Except.ok (some r.nextId)) ∧
    (decaySig sig2 ≠ decaySig sig →
      ∃ e, ((r.registerEvent name sig).1).getSubscribers name sig2
        = Except.error e) := by
  have hf := find?_after_register r name sig h
  refine ⟨?_, fun hm => ?_, fun hm => ?_⟩
  · unfold Registry.registerEvent
    rw [h]
  · unfold Registry.getSubscribers
    rw [hf]
    dsimp only
    rw [if_pos hm.symm]
  · unfold Registry.getSubscribers
    rw [hf]
    dsimp only
    rw [if_neg (fun hc => hm hc.symm)]
    exact ⟨_, rfl⟩

/-- Witness for C5: register "ev" with signature `std::string&&`; look
it up as `const std::string&` (decay-equivalent, succeeds with the same
collection 0) and as `const char*` against a `char*` registration
(pointer constness differs after decay, mismatch error). -/
theorem register_then_lookup_decay_witness :
    (decaySig [CppTy.lref (CppTy.constQ (CppTy.base "string"))]
        = decaySig [CppTy.rref (CppTy.base "string")]) ∧
    ((Registry.registerEvent ⟨[], 0⟩ "ev" [CppTy.rref (CppTy.base "string")]).1).getSubscribers
        "ev" [CppTy.lref (CppTy.constQ (CppTy.base "string"))] = Except.ok (some 0) ∧
    (decaySig [CppTy.ptr (CppTy.constQ (CppTy.base "char"))]
        ≠ decaySig [CppTy.ptr (CppTy.base "char")]) ∧
    (∃ e, ((Registry.registerEvent ⟨[], 0⟩ "cv" [CppTy.ptr (CppTy.base "char")]).1).getSubscribers
        "cv" [CppTy.ptr (CppTy.constQ (CppTy.base "char"))] = Except.error e) :=
  ⟨by decide,
   ((register_then_lookup_decay ⟨[], 0⟩ "ev" [CppTy.rref (CppTy.base "string")]
      [CppTy.lref (CppTy.constQ (CppTy.base "string"))] (by decide)).2.1 (by decide)),
   by decide,
   ((register_then_lookup_decay ⟨[], 0⟩ "cv" [CppTy.ptr (CppTy.base "char")]
      [CppTy.ptr (CppTy.constQ (CppTy.base "char"))] (by decide)).2.2 (by decide))⟩

/-- C6: `publish` and `call` return false exactly when the topic name
is not registered, and returning false has no other effect (the state
is returned unchanged, nothing enqueued, no handler run); an unknown
name is reported by the boolean, never as an exception.  When the name
is registered with a matching decayed signature, `publish` appends the
captured event to the queue and returns true, and `call` fires the
handlers synchronously and returns true. -/
theorem publish_call_unknown_topic (es : EvSys) (name : String) (sig : List CppTy)
    (arg : Nat) :
    (es.reg.find? name = none →
      es.publish name sig arg = Except.ok (es, false) ∧
      es.call name sig arg = Except.ok (es, false)) ∧
    (∀ es2 b, es.publish name sig arg = Except.ok (es2, b) →
      (b = false ↔ es.reg.find? name = none)) ∧
    (∀ es2 b, es.call name sig arg = Except.ok (es2, b) →
      (b = false ↔ es.reg.find? name = none)) ∧
    (∀ cid stored, es.reg.find? name = some (cid, stored) → stored = decaySig sig →
      (∃ es2, es.publish name sig arg = Except.ok (es2, true) ∧
        es2.qs.queue = es.qs.queue ++ [⟨cid, arg⟩] ∧
        es2.qs.trace = es.qs.trace ∧ es2.reg = es.reg) ∧
      (∃ es3, es.call name sig arg = Except.ok (es3, true) ∧
        es3.qs.trace = es.qs.trace ++ eventTrace es.colls ⟨cid, arg⟩ ∧
        es3.qs.queue = es.qs.queue ++ eventPubs es.colls ⟨cid, arg⟩ ∧
        es3.reg = es.reg)) := by
  refine ⟨fun h0 => ?_, fun es2 b hb => ?_, fun es3 b hb => ?_,
    fun cid stored hs hm => ?_⟩
  · constructor
    · unfold EvSys.publish Registry.getSubscribers
      rw [h0]
    · unfold EvSys.call Registry.getSubscribers
      rw [h0]
  · revert hb
    unfold EvSys.publish Registry.getSubscribers
    rcases hfind : es.reg.find? name with _ | ⟨cid, stored⟩
    · intro hb
      simp only [Except.ok.injEq, Prod.mk.injEq] at hb
      simp [hb.2.symm]
    · dsimp only
      by_cases hm : stored = decaySig sig
      · rw [if_pos hm]
        dsimp only
        intro hb
        simp only [Except.ok.injEq, Prod.mk.injEq] at hb
        simp [hb.2.symm]
      · rw [if_neg hm]
        intro hb
        exact absurd hb (by simp)
  · revert hb
    unfold EvSys.call Registry.getSubscribers
    rcases hfind : es.reg.find? name with _ | ⟨cid, stored⟩
    · intro hb
      simp only [Except.ok.injEq, Prod.mk.injEq] at hb
      simp [hb.2.symm]
    · dsimp only
      by_cases hm : stored = decaySig sig
      · rw [if_pos hm]
        dsimp only
        intro hb
        simp only [Except.ok.injEq, Prod.mk.injEq] at hb
        simp [hb.2.symm]
      · rw [if_neg hm]
        intro hb
        exact absurd hb (by simp)
  · constructor
    · refine ⟨{ es with qs := { es.qs with queue := es.qs.queue ++ [⟨cid, arg⟩] } },
        ?_, rfl, rfl, rfl⟩
      unfold EvSys.publish Registry.getSubscribers
      rw [hs]
      dsimp only
      rw [if_pos hm]
    · refine ⟨{ es with qs := fireEvent es.colls ⟨cid, arg⟩ es.qs }, ?_, ?_, ?_, rfl⟩
      · unfold EvSys.call Registry.getSubscribers
        rw [hs]
        dsimp only
        rw [if_pos hm]
      · rw [fireEvent_eq]
      · rw [fireEvent_eq]

/-- An event system over the registry `rA` with empty queue; collection
0 holds one plain handler with tag 20. -/
def esA : EvSys :=
  ⟨rA, fun n => if n = 0 then [HandlerAct.plain 20] else [], ⟨[], []⟩⟩

/-- Witness for C6 at `esA`: an unknown name gives an ok-false result
for both `publish` and `call`, and the registered name "A" with
matching signature gives enqueue-and-true. -/
theorem publish_call_unknown_topic_witness :
    (esA.publish "B" [CppTy.base "int"] 7 = Except.ok (esA, false) ∧
      esA.call "B" [CppTy.base "int"] 7 = Except.ok (esA, false)) ∧
    (∃ es2, esA.publish "A" [CppTy.base "int"] 7 = Except.ok (es2, true) ∧
      es2.qs.queue = esA.qs.queue ++ [⟨0, 7⟩] ∧
      es2.qs.trace = esA.qs.trace ∧ es2.reg = esA.reg) :=
  ⟨(publish_call_unknown_topic esA "B" [CppTy.base "int"] 7).1 (by decide),
   ((publish_call_unknown_topic esA "A" [CppTy.base "int"] 7).2.2.2 0
      [CppTy.base "int"] (by decide) (by decide)).1⟩

/-- C10: `hasRegisteredEvent` is true exactly when the name is
registered with the decayed requested signature; it is false — and in
particular raises no error, unlike `getSubscribers`, which throws a
signature-mismatch error in the mismatch case — both when the name is
absent and when it is present with a different stored signature, so
its boolean result cannot distinguish the two. -/
theorem hasRegisteredEvent_semantics (r : Registry) (name : String) (sig : List CppTy) :
    (r.hasRegisteredEvent name sig = true ↔
      ∃ cid, r.find? name = some (cid, decaySig sig)) ∧
    (r.find? name = none → r.hasRegisteredEvent name sig = false) ∧
    (∀ cid stored, r.find? name = some (cid, stored) → stored ≠ decaySig sig →
      r.hasRegisteredEvent name sig = false ∧
      ∃ e, r.getSubscribers name sig = Except.error e) := by
  refine ⟨?_, fun h0 => ?_, fun cid stored hs hm => ⟨?_, ?_⟩⟩
  · unfold Registry.hasRegisteredEvent
    rcases hfind : r.find? name with _ | ⟨cid, stored⟩
    · simp
    · dsimp only
      by_cases hm : stored = decaySig sig <;> simp [hm]
  · unfold Registry.hasRegisteredEvent
    rw [h0]
  · unfold Registry.hasRegisteredEvent
    rw [hs]
    dsimp only
    simp [hm]
  · unfold Registry.getSubscribers
    rw [hs]
    dsimp only
    rw [if_neg hm]
    exact ⟨_, rfl⟩

/-- Witness for C10 at `rA`: name "A" is stored at signature [int], so
querying with [bool] yields false from `hasRegisteredEvent` while
`getSubscribers` throws; querying an absent name also yields false. -/
theorem hasRegisteredEvent_semantics_witness :
    (rA.hasRegisteredEvent "A" [CppTy.base "bool"] = false ∧
      ∃ e, rA.getSubscribers "A" [CppTy.base "bool"] = Except.error e) ∧
    rA.hasRegisteredEvent "B" [CppTy.base "int"] = false :=
  ⟨(hasRegisteredEvent_semantics rA "A" [CppTy.base "bool"]).2.2 0 [CppTy.base "int"]
      (by decide) (by decide),
   (hasRegisteredEvent_semantics rA "B" [CppTy.base "int"]).2.1 (by decide)⟩

theorem removeFirstById_append_fresh (l : List Subscriber) (hid tag : Nat)
    (h : ∀ s ∈ l, s.id ≠ hid) :
    removeFirstById (l ++ [⟨hid, tag⟩]) hid = l := by
  induction l with
  | nil => simp [removeFirstById]
  | cons a t ih =>
      have ha : a.id ≠ hid := h a (by simp)
      simp only [List.cons_append, removeFirstById, if_neg ha, List.append_eq]
      rw [ih (fun s hs => h s (by simp [hs]))]

/-- C8: after `addSubscriber` followed by `unsubscribe` on the returned
handle, the collection's handler list is exactly what it was before
(only the freshly added handler was removed), every other collection is
untouched, a subsequent `call` of the topic produces the original
invocation trace (so the unsubscribed handler is never invoked), the
handle has become empty, and `unsubscribe` on an empty handle — and
hence a second `unsubscribe` on the same handle — changes nothing and
does not error. -/
theorem unsubscribe_removes_exactly (w : SubWorld) (i tag arg : Nat)
    (hwf : (w.colls i).Wf) :
    ((((w.addSubscriber i tag).1).unsubscribe (w.addSubscriber i tag).2).1.colls i).handlers
      = (w.colls i).handlers ∧
    (∀ j, j ≠ i →
      (((w.addSubscriber i tag).1).unsubscribe (w.addSubscriber i tag).2).1.colls j
        = w.colls j) ∧
    ((((w.addSubscriber i tag).1).unsubscribe (w.addSubscriber i tag).2).1.colls i).callTrace
        arg
      = (w.colls i).callTrace arg ∧
    (((w.addSubscriber i tag).1).unsubscribe (w.addSubscriber i tag).2).2
      = (⟨none, (w.colls i).newIdCounter⟩ : SubHandle) ∧
    (∀ (w2 : SubWorld) (hid : Nat),
      w2.unsubscribe ⟨none, hid⟩ = (w2, (⟨none, hid⟩ : SubHandle))) := by
  have hne : ∀ s ∈ (w.colls i).handlers, s.id ≠ (w.colls i).newIdCounter :=
    fun s hs => Nat.ne_of_lt (hwf s hs)
  have hrem : removeFirstById
      ((w.colls i).handlers ++ [⟨(w.colls i).newIdCounter, tag⟩])
      (w.colls i).newIdCounter = (w.colls i).handlers :=
    removeFirstById_append_fresh _ _ _ hne
  refine ⟨?_, fun j hj => ?_, ?_, ?_, fun w2 hid => rfl⟩
  · simp [SubWorld.addSubscriber, SubWorld.unsubscribe, SubWorld.update,
      SubColl.removeHandler, hrem]
  · simp [SubWorld.addSubscriber, SubWorld.unsubscribe, SubWorld.update,
      SubColl.removeHandler, hj]
  · simp [SubWorld.addSubscriber, SubWorld.unsubscribe, SubWorld.update,
      SubColl.removeHandler, SubColl.callTrace, hrem]
  · simp [SubWorld.addSubscriber, SubWorld.unsubscribe, SubWorld.update]

/-- A world of collections each holding one subscriber (id 0, tag 7),
with the next id counter at 1. -/
def wS : SubWorld := ⟨fun _ => ⟨[⟨0, 7⟩], 1⟩⟩

/-- Witness for C8 in the concrete world `wS`: adding and removing a
subscriber on collection 0 restores its one-element handler list, and
the returned handle has become empty. -/
theorem unsubscribe_removes_exactly_witness :
    ((((wS.addSubscriber 0 9).1).unsubscribe (wS.addSubscriber 0 9).2).1.colls 0).handlers
      = [⟨0, 7⟩] ∧
    (((wS.addSubscriber 0 9).1).unsubscribe (wS.addSubscriber 0 9).2).2
      = (⟨none, 1⟩ : SubHandle) :=
  ⟨((unsubscribe_removes_exactly wS 0 9 3
      (by intro s hs; simp [wS] at hs ⊢; simp [hs])).1),
   ((unsubscribe_removes_exactly wS 0 9 3
      (by intro s hs; simp [wS] at hs ⊢; simp [hs])).2.2.2.1)⟩

/-- A world with one collection holding one subscriber, referenced by a
live handle. -/
def w9 : SubWorld := ⟨fun _ => ⟨[⟨0, 7⟩], 1⟩⟩

/-- A live handle to subscriber 0 of collection 0. -/
def h9 : SubHandle := ⟨some 0, 0⟩

/-- C9, evaluated at the failing input: in the legacy
EventSubscriberCollection.h implementation, `release()` performs
`*this = SubscriptionHandle()`, which goes through
`ScopedSubscription::operator=(const SubscriptionHandle&)` and
therefore unsubscribes first — the handler is removed from the
collection, contradicting both the claim and the function's own
documentation ("without unsubscribing").  The current
EventSubscription.h implementation (`clear()` instead of assignment)
behaves as the claim says: the handler stays, the returned handle still
references it, and destroying the scoped subscription afterwards no
longer unsubscribes. -/
theorem release_legacy_unsubscribes :
    ((ScopedSubscription.releaseLegacy w9 h9).1.colls 0).handlers = [] ∧
    ((ScopedSubscription.release w9 h9).1.colls 0).handlers = [⟨0, 7⟩] ∧
    (ScopedSubscription.release w9 h9).2.1 = h9 ∧
    ((ScopedSubscription.destruct (ScopedSubscription.release w9 h9).1
        (ScopedSubscription.release w9 h9).2.2).colls 0).handlers = [⟨0, 7⟩] :=
  ⟨rfl, rfl, rfl, rfl⟩

/-! ## Lemmas about string parsing -/

theorem dropWhile_append_of_ne_nil (p : Char → Bool) (l j : List Char)
    (h : l.dropWhile p ≠ []) :
    (l ++ j).dropWhile p = l.dropWhile p ++ j := by
  induction l with
  | nil => simp at h
  | cons a t ih =>
      by_cases hp : p a
      · rw [List.dropWhile_cons_of_pos hp] at h
        rw [List.cons_append, List.dropWhile_cons_of_pos hp,
          List.dropWhile_cons_of_pos hp]
        exact ih h
      · rw [List.cons_append, List.dropWhile_cons_of_neg hp,
          List.dropWhile_cons_of_neg hp, List.cons_append]

theorem takeWhile_append_headNotDigit (l j : List Char)
    (hj : headNotDigit j = true) :
    (l ++ j).takeWhile Char.isDigit = l.takeWhile Char.isDigit := by
  induction l with
  | nil =>
      rcases j with _ | ⟨c, t⟩
      · rfl
      · simp only [headNotDigit, Bool.not_eq_true'] at hj
        simp [List.takeWhile_cons_of_neg, hj]
  | cons a t ih =>
      by_cases hp : a.isDigit
      · rw [List.cons_append, List.takeWhile_cons_of_pos hp,
          List.takeWhile_cons_of_pos hp, ih]
      · rw [List.cons_append, List.takeWhile_cons_of_neg hp,
          List.takeWhile_cons_of_neg hp]

theorem signSplit_append (cs j : List Char) (h : cs ≠ []) :
    signSplit (cs ++ j) = ((signSplit cs).1, (signSplit cs).2 ++ j) := by
  rcases cs with _ | ⟨c, t⟩
  · exact absurd rfl h
  · by_cases hm : c = '-'
    · simp [signSplit, hm]
    · by_cases hp : c = '+'
      · simp [signSplit, hm, hp]
      · simp [signSplit, hm, hp]

/-- The input-dependent pieces of the extraction are unchanged by a
suffix that does not start with a digit, provided the input is not all
whitespace. -/
theorem intField_append (s junk : String) (hjunk : headNotDigit junk.data = true)
    (hcs : s.data.dropWhile isCppSpace ≠ []) :
    (signSplit ((s ++ junk).data.dropWhile isCppSpace)).2.takeWhile Char.isDigit
      = (signSplit (s.data.dropWhile isCppSpace)).2.takeWhile Char.isDigit ∧
    intFieldValue (s ++ junk) = intFieldValue s := by
  have hdrop : (s ++ junk).data.dropWhile isCppSpace
      = s.data.dropWhile isCppSpace ++ junk.data := by
    rw [String.data_append]
    exact dropWhile_append_of_ne_nil isCppSpace s.data junk.data hcs
  have hsign : signSplit ((s ++ junk).data.dropWhile isCppSpace)
      = ((signSplit (s.data.dropWhile isCppSpace)).1,
         (signSplit (s.data.dropWhile isCppSpace)).2 ++ junk.data) := by
    rw [hdrop]
    exact signSplit_append _ junk.data hcs
  have htake : (signSplit ((s ++ junk).data.dropWhile isCppSpace)).2.takeWhile Char.isDigit
      = (signSplit (s.data.dropWhile isCppSpace)).2.takeWhile Char.isDigit := by
    rw [hsign]
    exact takeWhile_append_headNotDigit _ junk.data hjunk
  refine ⟨htake, ?_⟩
  unfold intFieldValue
  rw [htake, hsign]

/-- C4 counterexample: the string "10abc" — a valid numeric prefix
followed by unconsumed trailing characters — is parsed successfully as
10 by the integral-parameter value conversion, not rejected with a
parse error as the claim requires. -/
theorem parseIntCpp_accepts_trailing_junk :
    parseIntCpp "10abc" = Except.ok 10 := rfl

/-- C4 amended: the integral string conversion succeeds exactly when
the input, after the whitespace skipped by the stream and an optional
sign, starts with a decimal digit AND the extracted field's value fits
the platform's 32-bit `int` (it fails with `std::invalid_argument` on
non-numeric content and on out-of-range fields); it reads the maximal
digit run and ignores anything after it, so appending any characters
that do not start with a digit never changes a successful parse —
trailing input is truncated, not rejected. -/
theorem parseIntCpp_prefix_semantics (s junk : String)
    (hjunk : headNotDigit junk.data = true) :
    ((∃ v, parseIntCpp s = Except.ok v) ↔
      (hasIntPrefix s = true ∧ intMin ≤ intFieldValue s ∧ intFieldValue s ≤ intMax)) ∧
    (∀ v, parseIntCpp s = Except.ok v → parseIntCpp (s ++ junk) = Except.ok v) := by
  have hpref : hasIntPrefix s = true ↔
      (signSplit (s.data.dropWhile isCppSpace)).2.takeWhile Char.isDigit ≠ [] := by
    unfold hasIntPrefix
    rcases hrest : (signSplit (s.data.dropWhile isCppSpace)).2 with _ | ⟨c, r⟩
    · simp
    · by_cases hc : c.isDigit
      · rw [List.takeWhile_cons_of_pos hc]
        simp [hc]
      · rw [List.takeWhile_cons_of_neg hc]
        simp [hc]
  constructor
  · unfold parseIntCpp
    by_cases hP : (signSplit (s.data.dropWhile isCppSpace)).2.takeWhile Char.isDigit = []
    · rw [if_pos hP]
      simp only [hpref]
      constructor
      · intro hv
        exact absurd hv.choose_spec (by simp)
      · intro hv
        exact absurd hP hv.1
    · rw [if_neg hP]
      by_cases hR : intFieldValue s < intMin ∨ intMax < intFieldValue s
      · rw [if_pos hR]
        constructor
        · intro hv
          exact absurd hv.choose_spec (by simp)
        · intro hv
          rcases hR with hR | hR
          · omega
          · omega
      · rw [if_neg hR]
        constructor
        · intro _
          refine ⟨hpref.mpr hP, ?_, ?_⟩ <;> omega
        · intro _
          exact ⟨intFieldValue s, rfl⟩
  · intro v hv
    have hds : (signSplit (s.data.dropWhile isCppSpace)).2.takeWhile Char.isDigit ≠ [] := by
      intro hnil
      unfold parseIntCpp at hv
      rw [if_pos hnil] at hv
      exact absurd hv (by simp)
    have hcs : s.data.dropWhile isCppSpace ≠ [] := by
      intro hnil
      rw [hnil] at hds
      exact hds rfl
    have hfield := intField_append s junk hjunk hcs
    unfold parseIntCpp at hv ⊢
    rw [hfield.1, hfield.2]
    exact hv

/-- Witness for C4's amended claim: "42" has a numeric prefix, parses
as 42, and appending the non-numeric suffix "xy" leaves the parse
result unchanged (the suffix is ignored, not rejected); the 20-digit
string "99999999999999999999" overflows `int`, so its parse cannot
succeed. -/
theorem parseIntCpp_prefix_semantics_witness :
    headNotDigit (String.data "xy") = true ∧
    hasIntPrefix "42" = true ∧
    parseIntCpp ("42" ++ "xy") = Except.ok 42 ∧
    (∀ v, parseIntCpp "99999999999999999999" ≠ Except.ok v) := by
  have h := parseIntCpp_prefix_semantics "42" "xy" (by decide)
  have ho := parseIntCpp_prefix_semantics "99999999999999999999" "xy" (by decide)
  refine ⟨by decide, (h.1.mp ⟨42, rfl⟩).1, h.2 42 rfl, fun v hv => ?_⟩
  have hmem := ho.1.mp ⟨v, hv⟩
  have hbad : ¬ (intFieldValue "99999999999999999999" ≤ intMax) := by decide
  exact hbad hmem.2.2

end ESLib
